import Mathlib

/-
Verification of the LiveKit-Platform campaign orchestration core.

The repository's visible code (`backend/services/orchestration/main.py`,
`backend/services/gateway/routers/calls.py`,
`backend/services/gateway/routers/phone_numbers.py`) is embedded directly.
The campaign service and dispatcher (`campaign_service.py`,
`tasks_queue/tasks.py`, `shared/database/models.py`) are imported by that
code but are not part of the provided sources; where a claim depends on
them, the definitions below are modelled from the specification and are
marked as such in their doc comments.
-/

namespace Vobiz

/-- Modelled from the spec: the per-contact outcome enumeration
(PENDING, DISPATCHED, ANSWERED, FAILED, SKIPPED); the enum lives in
`shared.database.models`, which is not among the provided sources. -/
inductive Outcome
  | pending
  | dispatched
  | answered
  | failed
  | skipped
deriving DecidableEq

/-- Modelled from the spec: ANSWERED, FAILED and SKIPPED are the terminal
outcomes, after which a contact is never revisited. -/
def Outcome.isTerminal : Outcome → Bool
  | .answered => true
  | .failed => true
  | .skipped => true
  | _ => false

/-- Modelled from the spec: a contact's dispatch-relevant fields
(outcome and attempt counter). -/
structure Contact where
  outcome : Outcome
  attemptCount : Nat
deriving DecidableEq

/-- Modelled from the spec: campaign lifecycle states
(DRAFT, QUEUED, RUNNING, PAUSED, COMPLETED, CANCELLED, FAILED);
the enum lives in `shared.database.models`, outside the provided sources. -/
inductive CampaignStatus
  | draft
  | queued
  | running
  | paused
  | completed
  | cancelled
  | failed
deriving DecidableEq

/-- Modelled from the spec: COMPLETED, CANCELLED and FAILED are terminal. -/
def CampaignStatus.isTerminal : CampaignStatus → Bool
  | .completed => true
  | .cancelled => true
  | .failed => true
  | _ => false

/-- Modelled from the spec: the dispatcher's working view of one campaign:
lifecycle status, the ordered contact list, and the concurrency budget. -/
structure CampaignState where
  status : CampaignStatus
  contacts : List Contact
  maxConcurrent : Nat
deriving DecidableEq

/-- Modelled from the spec: `in_progress_count` is derivable by counting
DISPATCHED contacts with no terminal outcome yet (in this model a terminal
result overwrites the DISPATCHED outcome, so the count is exactly the
number of contacts whose outcome is DISPATCHED). -/
def inProgressCount (s : CampaignState) : Nat :=
  s.contacts.countP (fun c => decide (c.outcome = Outcome.dispatched))

/- ===================== gateway: workspace filter (from src) ============ -/

/-- MongoDB value of the `workspace_id` field of a stored call document:
the field can be absent, present as null, or present as a string. -/
inductive MongoFieldVal
  | absent
  | nullValue
  | stringValue (s : String)
deriving DecidableEq

/-- Authenticated user as used by the routers: `workspace_id` is an
optional string. -/
structure AuthUser where
  workspaceId : Option String
deriving DecidableEq

/-- Query filter produced by `get_workspace_filter`: either the empty
filter or the three-branch `$or` filter for one workspace. -/
inductive WorkspaceFilter
  | empty
  | workspaceOrLegacy (w : String)
deriving DecidableEq

/-- Translated from `routers/calls.py get_workspace_filter`: for a user with
a truthy `workspace_id` it returns the `$or` of `workspace_id == w`,
`workspace_id == null` and `workspace_id` absent; otherwise the empty
filter. Python truthiness makes the empty string fall to the empty filter. -/
def get_workspace_filter (user : Option AuthUser) : WorkspaceFilter :=
  match user with
  | some u =>
    match u.workspaceId with
    | some w => if w = "" then .empty else .workspaceOrLegacy w
    | none => .empty
  | none => .empty

/-- MongoDB semantics of the branch `\x7bworkspace_id: w\x7d`. -/
def branchEqString (w : String) : MongoFieldVal → Bool
  | .stringValue s => decide (s = w)
  | _ => false

/-- MongoDB semantics of the branch `\x7bworkspace_id: null\x7d`: in MongoDB an
equality match against null also matches documents missing the field. -/
def branchEqNull : MongoFieldVal → Bool
  | .nullValue => true
  | .absent => true
  | _ => false

/-- MongoDB semantics of the branch with `$exists: false`. -/
def branchNotExists : MongoFieldVal → Bool
  | .absent => true
  | _ => false

/-- Whether a document's `workspace_id` value matches the filter built by
`get_workspace_filter` (the empty filter matches everything; the `$or`
filter matches when any branch does). -/
def matchesWorkspaceFilter (f : WorkspaceFilter) (v : MongoFieldVal) : Bool :=
  match f with
  | .empty => true
  | .workspaceOrLegacy w => branchEqString w v || branchEqNull v || branchNotExists v

/- ===================== gateway: phone validation (from src) ============ -/

/-- HTTP-level result of a router call: a success body or an HTTP error
with status code and detail. -/
inductive ApiResult
  | ok (body : String)
  | httpError (code : Nat) (detail : String)
deriving DecidableEq

/-- Python's `s.startswith("+")`: true exactly when the first character of
the string is `+` (false on the empty string). -/
def startsWithPlus (s : String) : Bool :=
  match s.data with
  | [] => false
  | c :: _ => decide (c = '+')

/-- Translated from `routers/calls.py create_call`: a phone number not
starting with `+` is rejected with HTTP 400 before the service is invoked;
afterwards a service failure surfaces as HTTP 500 and a service success as
the success response. -/
def create_call (phoneNumber : String) (service : Except String String) : ApiResult :=
  if startsWithPlus phoneNumber = false then
    .httpError 400 "Phone number must be in E.164 format"
  else
    match service with
    | .ok body => .ok body
    | .error e => .httpError 500 e

/-- Translated from `routers/phone_numbers.py add_phone_number`: identical
leading validation, then the phone-number service. -/
def add_phone_number (number : String) (service : Except String String) : ApiResult :=
  if startsWithPlus number = false then
    .httpError 400 "Phone number must be in E.164 format"
  else
    match service with
    | .ok body => .ok body
    | .error e => .httpError 500 e

/-- Whether an `ApiResult` is an HTTP 400 rejection. -/
def isHttp400 : ApiResult → Bool
  | .ok _ => false
  | .httpError code _ => decide (code = 400)

/- ===================== job queue (from src) ============================ -/

/-- A Celery task record: the broker-generated task id and the campaign id
carried as the task argument. -/
structure CeleryTask where
  taskId : Nat
  campaignId : String
deriving DecidableEq

/-- The Celery broker state: a fresh-id counter (standing for uuid4
generation) and the list of enqueued tasks. -/
structure CeleryQueue where
  nextTaskId : Nat
  tasks : List CeleryTask
deriving DecidableEq

/-- Celery semantics of `execute_campaign.delay(campaign_id)`: every call
enqueues a new task whose task id is freshly generated (uuid4, modelled by
the counter); nothing deduplicates by the payload. -/
def celeryDelay (q : CeleryQueue) (cid : String) : CeleryTask × CeleryQueue :=
  let t : CeleryTask := { taskId := q.nextTaskId, campaignId := cid }
  (t, { nextTaskId := q.nextTaskId + 1, tasks := q.tasks ++ [t] })

/-- Response body of the `/jobs/campaign/\x7bcampaign_id\x7d` route. -/
structure QueueCampaignResponse where
  status : String
  campaignId : String
  taskId : Nat
deriving DecidableEq

/-- Translated from `orchestration/main.py queue_campaign`: calls
`execute_campaign.delay(campaign_id)` and reports the fresh task id. -/
def queue_campaign (q : CeleryQueue) (cid : String) : QueueCampaignResponse × CeleryQueue :=
  let p := celeryDelay q cid
  ({ status := "queued", campaignId := cid, taskId := p.1.taskId }, p.2)

/-- Number of enqueued jobs that reference a given campaign. -/
def jobsFor (q : CeleryQueue) (cid : String) : Nat :=
  q.tasks.countP (fun t => decide (t.campaignId = cid))

/-- The empty Celery broker. -/
def emptyQueue : CeleryQueue :=
  { nextTaskId := 0, tasks := [] }

/-- Celery task states as reported by `AsyncResult(task_id).status`. -/
inductive CeleryTaskState
  | statePending
  | stateStarted
  | stateSuccess
  | stateFailure
  | stateRetry
  | stateRevoked
deriving DecidableEq

/-- The string Celery stores for each task state. -/
def CeleryTaskState.toStatusString : CeleryTaskState → String
  | .statePending => "PENDING"
  | .stateStarted => "STARTED"
  | .stateSuccess => "SUCCESS"
  | .stateFailure => "FAILURE"
  | .stateRetry => "RETRY"
  | .stateRevoked => "REVOKED"

/-- Celery `AsyncResult.ready()`: true exactly in the finished states. -/
def CeleryTaskState.isReady : CeleryTaskState → Bool
  | .stateSuccess => true
  | .stateFailure => true
  | .stateRevoked => true
  | _ => false

/-- Response body of the `/jobs/\x7btask_id\x7d` route. -/
structure JobStatusResponse where
  taskId : Nat
  status : String
  result : Option String
deriving DecidableEq

/-- Translated from `orchestration/main.py get_job_status`: reads the Celery
result backend for the task id and returns its raw status string, attaching
the stored result only when the task is ready. -/
def get_job_status (backend : Nat → CeleryTaskState × Option String) (tid : Nat) :
    JobStatusResponse :=
  { taskId := tid
    status := (backend tid).1.toStatusString
    result := if (backend tid).1.isReady then (backend tid).2 else none }

/-- A result backend in which every task is still unstarted; Celery reports
PENDING both for enqueued-but-unstarted tasks and for unknown task ids. -/
def freshBackend : Nat → CeleryTaskState × Option String :=
  fun _ => (CeleryTaskState.statePending, none)

/- ===================== lifecycle requests (spec-modelled) ============== -/

/-- Modelled from the spec: error taxonomy for lifecycle requests. -/
inductive TransitionError
  | invalidTransition
  | alreadyRunning
deriving DecidableEq

/-- Modelled from the spec: `StartCampaign` (DRAFT to QUEUED, otherwise
`InvalidTransition` with no state change); `CampaignService.start_campaign`
is not among the provided sources. -/
def tryStart (s : CampaignState) : CampaignState × Option TransitionError :=
  match s.status with
  | .draft => ({ s with status := .queued }, none)
  | _ => (s, some .invalidTransition)

/-- Modelled from the spec: `PauseCampaign` (RUNNING to PAUSED, otherwise
`InvalidTransition` with no state change); `CampaignService.pause_campaign`
is not among the provided sources. -/
def tryPause (s : CampaignState) : CampaignState × Option TransitionError :=
  match s.status with
  | .running => ({ s with status := .paused }, none)
  | _ => (s, some .invalidTransition)

/-- Modelled from the spec: `CancelCampaign` (RUNNING or PAUSED to
CANCELLED, otherwise `InvalidTransition` with no state change);
`CampaignService.cancel_campaign` is not among the provided sources. -/
def tryCancel (s : CampaignState) : CampaignState × Option TransitionError :=
  match s.status with
  | .running => ({ s with status := .cancelled }, none)
  | .paused => ({ s with status := .cancelled }, none)
  | _ => (s, some .invalidTransition)

/-- Modelled from the spec: resume (PAUSED to QUEUED, otherwise
`InvalidTransition` with no state change). -/
def tryResume (s : CampaignState) : CampaignState × Option TransitionError :=
  match s.status with
  | .paused => ({ s with status := .queued }, none)
  | _ => (s, some .invalidTransition)

/-- Translated from `orchestration/main.py start_campaign`: the route
answers success when the service performed the transition and HTTP 400
when the service reported failure (the service itself is spec-modelled by
`tryStart`). -/
def start_campaign_route (s : CampaignState) : ApiResult :=
  match tryStart s with
  | (_, none) => .ok "started"
  | (_, some _) => .httpError 400 "Cannot start campaign"

/- ===================== dispatcher (spec-modelled) ====================== -/

/-- Modelled from the spec: retry bound for transport failures, 1 initial
attempt plus 2 retries. -/
def retryLimit : Nat := 3

/-- Index of the first contact whose outcome is still PENDING (the resume
point of the dispatcher loop). -/
def firstPendingIdx : List Contact → Option Nat
  | [] => none
  | c :: rest =>
    if c.outcome = Outcome.pending then some 0
    else (firstPendingIdx rest).map (· + 1)

/-- Index of the first contact whose outcome is DISPATCHED (used by the
deterministic schedule of the executable dispatcher). -/
def firstDispatchedIdx : List Contact → Option Nat
  | [] => none
  | c :: rest =>
    if c.outcome = Outcome.dispatched then some 0
    else (firstDispatchedIdx rest).map (· + 1)

/-- Modelled from the spec: dispatching contact `i` marks it DISPATCHED and
increments its attempt counter. -/
def dispatchAt (s : CampaignState) (i : Nat) : CampaignState :=
  match s.contacts[i]? with
  | some c =>
    { s with contacts :=
        s.contacts.set i { outcome := Outcome.dispatched, attemptCount := c.attemptCount + 1 } }
  | none => s

/-- Result of one call-placement attempt as seen by the dispatcher. -/
inductive CallResult
  | answeredOk
  | semanticFail
  | transportErr
deriving DecidableEq

/-- Modelled from the spec: the contact record after one attempt resolves.
A success records ANSWERED; a semantic failure (busy, no-answer, declined)
is terminal on first attempt and records FAILED; a transport failure is
retried (attempt counter incremented, contact stays DISPATCHED) while the
campaign is running and the retry bound is not exhausted, and records
FAILED otherwise. -/
def resolveOutcome (st : CampaignStatus) (c : Contact) (r : CallResult) : Contact :=
  match r with
  | .answeredOk => { c with outcome := Outcome.answered }
  | .semanticFail => { c with outcome := Outcome.failed }
  | .transportErr =>
    if st = CampaignStatus.running ∧ c.attemptCount < retryLimit then
      { c with attemptCount := c.attemptCount + 1 }
    else
      { c with outcome := Outcome.failed }

/-- Modelled from the spec: recording the result of an outstanding attempt
for contact `i`; only a contact that is currently DISPATCHED is updated. -/
def resolveContact (s : CampaignState) (i : Nat) (r : CallResult) : CampaignState :=
  match s.contacts[i]? with
  | none => s
  | some c =>
    if c.outcome = Outcome.dispatched then
      { s with contacts := s.contacts.set i (resolveOutcome s.status c r) }
    else s

/-- Modelled from the spec: on cancellation every remaining PENDING contact
is marked SKIPPED; other contacts are untouched. -/
def skipPending (c : Contact) : Contact :=
  if c.outcome = Outcome.pending then { c with outcome := Outcome.skipped } else c

/-- Modelled from the spec: the cancel sweep over the whole contact list. -/
def sweepCancelled (s : CampaignState) : CampaignState :=
  { s with contacts := s.contacts.map skipPending }

/-- Labels of the dispatcher and lifecycle transitions; `place i` is the
PlaceCall invocation for contact `i`. -/
inductive DispatchLabel
  | startReq
  | claimJob
  | place (i : Nat)
  | resolve (i : Nat) (r : CallResult)
  | pauseReq
  | resumeReq
  | cancelReq
  | sweep
  | finish
  | fatal

/-- Modelled from the spec: the small-step transition relation of the
campaign lifecycle and the concurrency-bounded dispatcher. Dispatch
requires a RUNNING campaign with spare capacity and takes the first
PENDING contact in list order; results of outstanding calls may arrive at
any time; pause and cancel mutate the status out of band; the cancel sweep
marks PENDING contacts SKIPPED; completion requires every contact
terminal; `fatal` is the systemic campaign-level failure. -/
inductive Step : CampaignState → DispatchLabel → CampaignState → Prop
  | startReq {s : CampaignState} :
      s.status = CampaignStatus.draft →
      Step s .startReq { s with status := CampaignStatus.queued }
  | claimJob {s : CampaignState} :
      s.status = CampaignStatus.queued →
      Step s .claimJob { s with status := CampaignStatus.running }
  | place {s : CampaignState} {i : Nat} :
      s.status = CampaignStatus.running →
      inProgressCount s < s.maxConcurrent →
      firstPendingIdx s.contacts = some i →
      Step s (.place i) (dispatchAt s i)
  | resolve {s : CampaignState} {i : Nat} {c : Contact} (r : CallResult) :
      s.contacts[i]? = some c →
      c.outcome = Outcome.dispatched →
      Step s (.resolve i r) (resolveContact s i r)
  | pauseReq {s : CampaignState} :
      s.status = CampaignStatus.running →
      Step s .pauseReq { s with status := CampaignStatus.paused }
  | resumeReq {s : CampaignState} :
      s.status = CampaignStatus.paused →
      Step s .resumeReq { s with status := CampaignStatus.queued }
  | cancelReq {s : CampaignState} :
      s.status = CampaignStatus.running ∨ s.status = CampaignStatus.paused →
      Step s .cancelReq { s with status := CampaignStatus.cancelled }
  | sweep {s : CampaignState} :
      s.status = CampaignStatus.cancelled →
      Step s .sweep (sweepCancelled s)
  | finish {s : CampaignState} :
      s.status = CampaignStatus.running →
      (∀ c ∈ s.contacts, c.outcome.isTerminal = true) →
      Step s .finish { s with status := CampaignStatus.completed }
  | fatal {s : CampaignState} :
      s.status = CampaignStatus.running →
      Step s .fatal { s with status := CampaignStatus.failed }

/-- Reflexive-transitive reachability along dispatcher steps. -/
inductive Reach : CampaignState → CampaignState → Prop
  | refl (s : CampaignState) : Reach s s
  | tail {s t u : CampaignState} (l : DispatchLabel) :
      Reach s t → Step t l u → Reach s u

/-- Result the call-placement collaborator returns for the next attempt of
contact `i`, driven by an oracle keyed by contact index and attempt
number. -/
def nextAttemptResult (oracle : Nat → Nat → CallResult) (l : List Contact) (i : Nat) :
    CallResult :=
  match l[i]? with
  | some c => oracle i c.attemptCount
  | none => CallResult.transportErr

/-- Modelled from the spec: one decision point of the dispatcher loop under
a deterministic schedule (dispatch while capacity remains, otherwise
resolve the first outstanding attempt, and mark the campaign COMPLETED
when no PENDING and no DISPATCHED contact remains). -/
def dispatchTick (oracle : Nat → Nat → CallResult) (s : CampaignState) : CampaignState :=
  if s.status = CampaignStatus.running then
    if inProgressCount s < s.maxConcurrent then
      match firstPendingIdx s.contacts with
      | some i => dispatchAt s i
      | none =>
        match firstDispatchedIdx s.contacts with
        | some i => resolveContact s i (nextAttemptResult oracle s.contacts i)
        | none => { s with status := CampaignStatus.completed }
    else
      match firstDispatchedIdx s.contacts with
      | some i => resolveContact s i (nextAttemptResult oracle s.contacts i)
      | none => s
  else s

/-- Fuel-bounded iteration of the dispatcher loop. -/
def runDispatcher (oracle : Nat → Nat → CallResult) : Nat → CampaignState → CampaignState
  | 0, s => s
  | fuel + 1, s => runDispatcher oracle fuel (dispatchTick oracle s)

/-- The spec's retry scenario: 3 contacts, concurrency budget 1. -/
def scenarioState : CampaignState :=
  { status := CampaignStatus.running
    contacts :=
      [ { outcome := Outcome.pending, attemptCount := 0 }
      , { outcome := Outcome.pending, attemptCount := 0 }
      , { outcome := Outcome.pending, attemptCount := 0 } ]
    maxConcurrent := 1 }

/-- The spec's retry scenario oracle: contact 1 (0-based) hits a transport
error on every attempt; the other contacts answer. -/
def scenarioOracle : Nat → Nat → CallResult :=
  fun i _ => if i = 1 then CallResult.transportErr else CallResult.answeredOk

/- ===================== list lemmas ===================================== -/

/-- Setting position `i` of a list changes `countP` exactly by the
difference between the old and the new element's predicate value. -/
theorem countP_set_balance {α : Type} (p : α → Bool) :
    ∀ (l : List α) (i : Nat) (a b : α), l[i]? = some a →
      (l.set i b).countP p + (if p a then 1 else 0) =
        l.countP p + (if p b then 1 else 0) := by
  intro l
  induction l with
  | nil => intro i a b h; simp at h
  | cons x xs ih =>
    intro i a b h
    cases i with
    | zero =>
      simp only [List.getElem?_cons_zero, Option.some.injEq] at h
      subst h
      simp only [List.set_cons_zero, List.countP_cons]
      omega
    | succ n =>
      simp only [List.getElem?_cons_succ] at h
      have hih := ih n a b h
      simp only [List.set_cons_succ, List.countP_cons]
      omega

/-- A position holding an element is inside the list. -/
theorem lt_length_of_some {α : Type} {l : List α} {i : Nat} {a : α}
    (h : l[i]? = some a) : i < l.length :=
  (List.getElem?_eq_some.mp h).1

/-- `firstPendingIdx` returns the position of a PENDING contact. -/
theorem firstPendingIdx_pending :
    ∀ (l : List Contact) (i : Nat), firstPendingIdx l = some i →
      ∃ c, l[i]? = some c ∧ c.outcome = Outcome.pending := by
  intro l
  induction l with
  | nil => intro i h; simp [firstPendingIdx] at h
  | cons x xs ih =>
    intro i h
    by_cases hx : x.outcome = Outcome.pending
    · simp only [firstPendingIdx, if_pos hx, Option.some.injEq] at h
      subst h
      exact ⟨x, by simp, hx⟩
    · simp only [firstPendingIdx, if_neg hx, Option.map_eq_some'] at h
      obtain ⟨j, hj, hji⟩ := h
      obtain ⟨c, hc, hcp⟩ := ih j hj
      refine ⟨c, ?_, hcp⟩
      subst hji
      simpa using hc

/- ===================== invariant lemmas ================================ -/

/-- Dispatching a PENDING contact raises the DISPATCHED count by one. -/
theorem inProgress_dispatchAt {s : CampaignState} {i : Nat} {c : Contact}
    (hc : s.contacts[i]? = some c) (hcp : c.outcome = Outcome.pending) :
    inProgressCount (dispatchAt s i) = inProgressCount s + 1 := by
  have hbal := countP_set_balance (fun d => decide (d.outcome = Outcome.dispatched))
    s.contacts i c { outcome := Outcome.dispatched, attemptCount := c.attemptCount + 1 } hc
  simp only [hcp] at hbal
  simp only [dispatchAt, hc, inProgressCount]
  simpa using hbal

/-- Resolving an outstanding attempt never raises the DISPATCHED count. -/
theorem inProgress_resolve_le (s : CampaignState) (i : Nat) (r : CallResult) :
    inProgressCount (resolveContact s i r) ≤ inProgressCount s := by
  unfold resolveContact
  cases hx : s.contacts[i]? with
  | none => exact Nat.le_refl _
  | some c =>
    by_cases h : c.outcome = Outcome.dispatched
    · simp only [if_pos h]
      have hbal := countP_set_balance (fun d => decide (d.outcome = Outcome.dispatched))
        s.contacts i c (resolveOutcome s.status c r) hx
      simp only [inProgressCount]
      by_cases hpn : (resolveOutcome s.status c r).outcome = Outcome.dispatched <;>
        simp [h, hpn] at hbal <;> omega
    · simp only [if_neg h]
      exact Nat.le_refl _

/-- The cancel sweep turns PENDING into SKIPPED only, so it leaves the
DISPATCHED count unchanged. -/
theorem inProgress_sweep (s : CampaignState) :
    inProgressCount (sweepCancelled s) = inProgressCount s := by
  simp only [inProgressCount, sweepCancelled, List.countP_map]
  congr 1
  funext d
  unfold skipPending
  by_cases h : d.outcome = Outcome.pending
  · simp [h]
  · simp [h]

/-- `dispatchAt` keeps the concurrency budget field. -/
theorem dispatchAt_maxConcurrent (s : CampaignState) (i : Nat) :
    (dispatchAt s i).maxConcurrent = s.maxConcurrent := by
  unfold dispatchAt
  cases s.contacts[i]? <;> rfl

/-- `resolveContact` keeps the concurrency budget field. -/
theorem resolveContact_maxConcurrent (s : CampaignState) (i : Nat) (r : CallResult) :
    (resolveContact s i r).maxConcurrent = s.maxConcurrent := by
  unfold resolveContact
  cases s.contacts[i]? with
  | none => rfl
  | some c =>
    by_cases h : c.outcome = Outcome.dispatched
    · simp only [if_pos h]
    · simp only [if_neg h]

/-- `resolveContact` keeps the campaign status. -/
theorem resolveContact_status (s : CampaignState) (i : Nat) (r : CallResult) :
    (resolveContact s i r).status = s.status := by
  unfold resolveContact
  cases s.contacts[i]? with
  | none => rfl
  | some c =>
    by_cases h : c.outcome = Outcome.dispatched
    · simp only [if_pos h]
    · simp only [if_neg h]

/-- Every dispatcher step preserves the concurrency bound. -/
theorem step_preserves_bound {s t : CampaignState} {l : DispatchLabel}
    (h : Step s l t) (hs : inProgressCount s ≤ s.maxConcurrent) :
    inProgressCount t ≤ t.maxConcurrent := by
  cases h with
  | startReq hst => exact hs
  | claimJob hst => exact hs
  | place hst hcap hfp =>
    obtain ⟨c, hc, hcp⟩ := firstPendingIdx_pending _ _ hfp
    rw [inProgress_dispatchAt hc hcp, dispatchAt_maxConcurrent]
    omega
  | @resolve i c r hc hdisp =>
    have h1 := inProgress_resolve_le s i r
    rw [resolveContact_maxConcurrent]
    omega
  | pauseReq hst => exact hs
  | resumeReq hst => exact hs
  | cancelReq hst => exact hs
  | sweep hst =>
    rw [inProgress_sweep]
    exact hs
  | finish hst hall => exact hs
  | fatal hst => exact hs

/-- Claim C1: for every campaign, at every observed instant during
execution, the number of contacts whose outcome is DISPATCHED with no
terminal result yet is at most the campaign's `max_concurrent_calls`:
the bound is preserved along every reachable state, and a fresh campaign
(all contacts PENDING) starts with an in-progress count of zero. -/
theorem dispatch_concurrency_bound :
    (∀ s t : CampaignState, Reach s t →
        inProgressCount s ≤ s.maxConcurrent → inProgressCount t ≤ t.maxConcurrent) ∧
    (∀ s : CampaignState, (∀ c ∈ s.contacts, c.outcome = Outcome.pending) →
        inProgressCount s = 0) := by
  constructor
  · intro s t h
    induction h with
    | refl => exact id
    | tail l hst hstep ih => intro hs; exact step_preserves_bound hstep (ih hs)
  · intro s h
    simp only [inProgressCount, List.countP_eq_zero]
    intro c hc
    simp [h c hc]

/-- A two-contact fresh campaign used to instantiate the theorems. -/
def witnessFresh : CampaignState :=
  { status := CampaignStatus.running
    contacts :=
      [ { outcome := Outcome.pending, attemptCount := 0 }
      , { outcome := Outcome.pending, attemptCount := 0 } ]
    maxConcurrent := 1 }

/-- Witness for claim C1 at a concrete campaign and a concrete dispatch
step. -/
theorem dispatch_concurrency_bound_witness :
    inProgressCount (dispatchAt witnessFresh 0) ≤ (dispatchAt witnessFresh 0).maxConcurrent ∧
    inProgressCount witnessFresh = 0 :=
  ⟨dispatch_concurrency_bound.1 witnessFresh (dispatchAt witnessFresh 0)
      (Reach.tail (DispatchLabel.place 0) (Reach.refl witnessFresh)
        (Step.place (by decide) (by decide) (by decide)))
      (by decide),
    dispatch_concurrency_bound.2 witnessFresh (by decide)⟩

/- ===================== outcome monotonicity ============================ -/

/-- The outcome evolution order: PENDING below everything, DISPATCHED below
ANSWERED and FAILED, SKIPPED reachable only from PENDING, and terminal
outcomes below nothing but themselves. -/
def outcomeLe : Outcome → Outcome → Bool
  | .pending, _ => true
  | .dispatched, .dispatched => true
  | .dispatched, .answered => true
  | .dispatched, .failed => true
  | a, b => decide (a = b)

/-- `outcomeLe` is reflexive. -/
theorem outcomeLe_refl (a : Outcome) : outcomeLe a a = true := by
  cases a <;> rfl

/-- `outcomeLe` is transitive. -/
theorem outcomeLe_trans {a b c : Outcome}
    (h1 : outcomeLe a b = true) (h2 : outcomeLe b c = true) : outcomeLe a c = true := by
  revert h1 h2
  cases a <;> cases b <;> cases c <;> decide

/-- A contact that `skipPending` touches moves only forward in the outcome
order. -/
theorem outcomeLe_skipPending (c : Contact) :
    outcomeLe c.outcome (skipPending c).outcome = true := by
  rcases c with ⟨o, a⟩
  cases o <;> rfl

/-- `skipPending` leaves every non-PENDING contact unchanged. -/
theorem skipPending_of_not_pending {c : Contact} (h : c.outcome ≠ Outcome.pending) :
    skipPending c = c := by
  unfold skipPending
  simp [h]

/-- The resolved contact of a DISPATCHED contact is ANSWERED, FAILED, or
still DISPATCHED (transport retry). -/
theorem resolveOutcome_cases (st : CampaignStatus) (c : Contact) (r : CallResult)
    (h : c.outcome = Outcome.dispatched) :
    (resolveOutcome st c r).outcome = Outcome.answered ∨
    (resolveOutcome st c r).outcome = Outcome.failed ∨
    (resolveOutcome st c r).outcome = Outcome.dispatched := by
  cases r with
  | answeredOk => exact Or.inl rfl
  | semanticFail => exact Or.inr (Or.inl rfl)
  | transportErr =>
    unfold resolveOutcome
    by_cases h2 : st = CampaignStatus.running ∧ c.attemptCount < retryLimit
    · rw [if_pos h2]
      exact Or.inr (Or.inr h)
    · rw [if_neg h2]
      exact Or.inr (Or.inl rfl)

/-- Every single dispatcher step moves each contact's outcome forward in
the outcome order and never touches a contact with a terminal outcome. -/
theorem step_outcome_mono {s t : CampaignState} {l : DispatchLabel} (h : Step s l t) :
    ∀ (i : Nat) (c c' : Contact), s.contacts[i]? = some c → t.contacts[i]? = some c' →
      outcomeLe c.outcome c'.outcome = true ∧ (c.outcome.isTerminal = true → c' = c) := by
  cases h with
  | startReq hst =>
    intro i c c' hc hc'
    have hcc : some c = some c' := by rw [← hc]; exact hc'
    cases Option.some.inj hcc
    exact ⟨outcomeLe_refl _, fun _ => rfl⟩
  | claimJob hst =>
    intro i c c' hc hc'
    have hcc : some c = some c' := by rw [← hc]; exact hc'
    cases Option.some.inj hcc
    exact ⟨outcomeLe_refl _, fun _ => rfl⟩
  | @place i0 hst hcap hfp =>
    intro j c c' hc hc'
    obtain ⟨c0, hc0, hc0p⟩ := firstPendingIdx_pending _ _ hfp
    simp only [dispatchAt, hc0] at hc'
    by_cases hij : i0 = j
    · subst hij
      have hcc : c = c0 := by
        have : some c = some c0 := by rw [← hc]; exact hc0
        exact Option.some.inj this
      subst hcc
      rw [List.getElem?_set_eq_of_lt _ (lt_length_of_some hc0)] at hc'
      cases Option.some.inj hc'
      refine ⟨?_, ?_⟩
      · rw [hc0p]; rfl
      · intro hterm
        rw [hc0p] at hterm
        exact absurd hterm (by decide)
    · rw [List.getElem?_set_ne hij] at hc'
      have hcc : some c = some c' := by rw [← hc]; exact hc'
      cases Option.some.inj hcc
      exact ⟨outcomeLe_refl _, fun _ => rfl⟩
  | @resolve i0 c0 r hc0 hdisp =>
    intro j c c' hc hc'
    simp only [resolveContact, hc0, if_pos hdisp] at hc'
    by_cases hij : i0 = j
    · subst hij
      have hcc : c = c0 := by
        have : some c = some c0 := by rw [← hc]; exact hc0
        exact Option.some.inj this
      subst hcc
      rw [List.getElem?_set_eq_of_lt _ (lt_length_of_some hc0)] at hc'
      cases Option.some.inj hc'
      refine ⟨?_, ?_⟩
      · rw [hdisp]
        rcases resolveOutcome_cases s.status c r hdisp with h1 | h1 | h1 <;> rw [h1] <;> rfl
      · intro hterm
        rw [hdisp] at hterm
        exact absurd hterm (by decide)
    · rw [List.getElem?_set_ne hij] at hc'
      have hcc : some c = some c' := by rw [← hc]; exact hc'
      cases Option.some.inj hcc
      exact ⟨outcomeLe_refl _, fun _ => rfl⟩
  | pauseReq hst =>
    intro i c c' hc hc'
    have hcc : some c = some c' := by rw [← hc]; exact hc'
    cases Option.some.inj hcc
    exact ⟨outcomeLe_refl _, fun _ => rfl⟩
  | resumeReq hst =>
    intro i c c' hc hc'
    have hcc : some c = some c' := by rw [← hc]; exact hc'
    cases Option.some.inj hcc
    exact ⟨outcomeLe_refl _, fun _ => rfl⟩
  | cancelReq hst =>
    intro i c c' hc hc'
    have hcc : some c = some c' := by rw [← hc]; exact hc'
    cases Option.some.inj hcc
    exact ⟨outcomeLe_refl _, fun _ => rfl⟩
  | sweep hst =>
    intro i c c' hc hc'
    have hmap : (sweepCancelled s).contacts[i]? = some (skipPending c) := by
      show (s.contacts.map skipPending)[i]? = _
      rw [List.getElem?_map, hc]
      rfl
    have hcc : c' = skipPending c := by
      have : some c' = some (skipPending c) := by rw [← hc']; exact hmap
      exact Option.some.inj this
    subst hcc
    refine ⟨outcomeLe_skipPending c, ?_⟩
    intro hterm
    apply skipPending_of_not_pending
    intro hp
    rw [hp] at hterm
    exact absurd hterm (by decide)
  | finish hst hall =>
    intro i c c' hc hc'
    have hcc : some c = some c' := by rw [← hc]; exact hc'
    cases Option.some.inj hcc
    exact ⟨outcomeLe_refl _, fun _ => rfl⟩
  | fatal hst =>
    intro i c c' hc hc'
    have hcc : some c = some c' := by rw [← hc]; exact hc'
    cases Option.some.inj hcc
    exact ⟨outcomeLe_refl _, fun _ => rfl⟩

/-- Every dispatcher step preserves the number of contacts. -/
theorem step_length {s t : CampaignState} {l : DispatchLabel} (h : Step s l t) :
    t.contacts.length = s.contacts.length := by
  cases h with
  | startReq hst => rfl
  | claimJob hst => rfl
  | @place i0 hst hcap hfp =>
    obtain ⟨c0, hc0, _⟩ := firstPendingIdx_pending _ _ hfp
    simp only [dispatchAt, hc0]
    exact List.length_set _ _ _
  | @resolve i0 c0 r hc0 hdisp =>
    simp only [resolveContact, hc0, if_pos hdisp]
    exact List.length_set _ _ _
  | pauseReq hst => rfl
  | resumeReq hst => rfl
  | cancelReq hst => rfl
  | sweep hst => exact List.length_map _ _
  | finish hst hall => rfl
  | fatal hst => rfl

/-- Along any reachable sequence of steps each contact's outcome only
moves forward, and a terminal contact is never changed again. -/
theorem reach_outcome_mono {s t : CampaignState} (h : Reach s t) :
    ∀ (i : Nat) (c : Contact), s.contacts[i]? = some c →
      ∃ c', t.contacts[i]? = some c' ∧ outcomeLe c.outcome c'.outcome = true ∧
        (c.outcome.isTerminal = true → c' = c) := by
  induction h with
  | refl =>
    intro i c hc
    exact ⟨c, hc, outcomeLe_refl _, fun _ => rfl⟩
  | @tail t u l hst hstep ih =>
    intro i c hc
    obtain ⟨c1, hc1, hle1, hterm1⟩ := ih i c hc
    have hlt2 : i < u.contacts.length := by
      rw [step_length hstep]
      exact lt_length_of_some hc1
    have hc2 : u.contacts[i]? = some u.contacts[i] := List.getElem?_eq_getElem hlt2
    have hmono := step_outcome_mono hstep i c1 _ hc1 hc2
    refine ⟨u.contacts[i], hc2, outcomeLe_trans hle1 hmono.1, ?_⟩
    intro hterm
    have h1 : c1 = c := hterm1 hterm
    have h2 : u.contacts[i] = c1 := by
      apply hmono.2
      rw [h1]
      exact hterm
    rw [h2, h1]

/-- Claim C8: every contact's outcome evolves monotonically along
PENDING to DISPATCHED to ANSWERED or FAILED, or PENDING to SKIPPED on
cancellation; no step moves an outcome backwards, and a contact with a
terminal outcome is never revisited — both for a single step and along any
reachable execution. -/
theorem outcome_monotonic :
    (∀ (s : CampaignState) (l : DispatchLabel) (t : CampaignState), Step s l t →
        ∀ (i : Nat) (c c' : Contact), s.contacts[i]? = some c → t.contacts[i]? = some c' →
          outcomeLe c.outcome c'.outcome = true ∧ (c.outcome.isTerminal = true → c' = c)) ∧
    (∀ s t : CampaignState, Reach s t →
        ∀ (i : Nat) (c : Contact), s.contacts[i]? = some c →
          ∃ c', t.contacts[i]? = some c' ∧ outcomeLe c.outcome c'.outcome = true ∧
            (c.outcome.isTerminal = true → c' = c)) :=
  ⟨fun _ _ _ h => step_outcome_mono h, fun _ _ h => reach_outcome_mono h⟩

/-- Witness for claim C8 at a concrete dispatch step: the first contact of
the fresh campaign moves PENDING to DISPATCHED. -/
theorem outcome_monotonic_witness :
    outcomeLe Outcome.pending Outcome.dispatched = true :=
  (outcome_monotonic.1 witnessFresh (DispatchLabel.place 0) (dispatchAt witnessFresh 0)
    (Step.place (by decide) (by decide) (by decide)) 0
    { outcome := Outcome.pending, attemptCount := 0 }
    { outcome := Outcome.dispatched, attemptCount := 1 }
    (by decide) (by decide)).1

/- ===================== cancellation semantics ========================== -/

/-- A cancelled campaign stays cancelled under every step. -/
theorem step_keeps_cancelled {s t : CampaignState} {l : DispatchLabel}
    (h : Step s l t) (hc : s.status = CampaignStatus.cancelled) :
    t.status = CampaignStatus.cancelled := by
  cases h with
  | startReq hst => rw [hc] at hst; exact absurd hst (by decide)
  | claimJob hst => rw [hc] at hst; exact absurd hst (by decide)
  | place hst hcap hfp => rw [hc] at hst; exact absurd hst (by decide)
  | @resolve i0 c0 r hc0 hdisp => rw [resolveContact_status]; exact hc
  | pauseReq hst => rw [hc] at hst; exact absurd hst (by decide)
  | resumeReq hst => rw [hc] at hst; exact absurd hst (by decide)
  | cancelReq hst => rfl
  | sweep hst => exact hc
  | finish hst hall => rw [hc] at hst; exact absurd hst (by decide)
  | fatal hst => rw [hc] at hst; exact absurd hst (by decide)

/-- Once observed, cancellation persists along any reachable sequence. -/
theorem reach_keeps_cancelled {s t : CampaignState} (h : Reach s t)
    (hc : s.status = CampaignStatus.cancelled) :
    t.status = CampaignStatus.cancelled := by
  induction h with
  | refl => exact hc
  | tail l hst hstep ih => exact step_keeps_cancelled hstep ih

/-- No PlaceCall step can fire from a cancelled campaign. -/
theorem no_place_from_cancelled {s t : CampaignState} {i : Nat}
    (hc : s.status = CampaignStatus.cancelled) :
    ¬ Step s (DispatchLabel.place i) t := by
  intro h
  cases h with
  | place hst hcap hfp => rw [hc] at hst; exact absurd hst (by decide)

/-- After the cancel sweep no contact is PENDING any more. -/
theorem sweep_no_pending (s : CampaignState) :
    ∀ c ∈ (sweepCancelled s).contacts, c.outcome ≠ Outcome.pending := by
  intro c hmem
  simp only [sweepCancelled] at hmem
  obtain ⟨a, _, rfl⟩ := List.mem_map.mp hmem
  unfold skipPending
  by_cases h : a.outcome = Outcome.pending
  · simp [h]
  · simp [h]

/-- The cancel sweep maps each contact pointwise: PENDING becomes SKIPPED
and everything else is untouched. -/
theorem sweep_getElem (s : CampaignState) (i : Nat) (c : Contact)
    (hc : s.contacts[i]? = some c) :
    (sweepCancelled s).contacts[i]? =
      some (if c.outcome = Outcome.pending
            then { c with outcome := Outcome.skipped } else c) := by
  show (s.contacts.map skipPending)[i]? = _
  rw [List.getElem?_map, hc]
  rfl

/-- Claim C6: once cancellation is observed, the campaign stays cancelled
along every later step and no PlaceCall step can ever fire again; the
cancel sweep turns every still-PENDING contact into SKIPPED (no PENDING
contact survives it) and leaves every other contact untouched. -/
theorem cancel_skips_and_stops :
    (∀ s t : CampaignState, s.status = CampaignStatus.cancelled → Reach s t →
        t.status = CampaignStatus.cancelled ∧
        ∀ (i : Nat) (u : CampaignState), ¬ Step t (DispatchLabel.place i) u) ∧
    (∀ s : CampaignState, ∀ c ∈ (sweepCancelled s).contacts, c.outcome ≠ Outcome.pending) ∧
    (∀ (s : CampaignState) (i : Nat) (c : Contact), s.contacts[i]? = some c →
        (sweepCancelled s).contacts[i]? =
          some (if c.outcome = Outcome.pending
                then { c with outcome := Outcome.skipped } else c)) := by
  refine ⟨?_, sweep_no_pending, sweep_getElem⟩
  intro s t hc hr
  have ht := reach_keeps_cancelled hr hc
  exact ⟨ht, fun i u => no_place_from_cancelled ht⟩

/-- A one-contact cancelled campaign used to instantiate the theorems. -/
def wCancelState : CampaignState :=
  { status := CampaignStatus.cancelled
    contacts := [ { outcome := Outcome.pending, attemptCount := 0 } ]
    maxConcurrent := 1 }

/-- Witness for claim C6 at a concrete cancelled campaign. -/
theorem cancel_skips_and_stops_witness :
    wCancelState.status = CampaignStatus.cancelled ∧
    (sweepCancelled wCancelState).contacts[0]? =
      some (if ({ outcome := Outcome.pending, attemptCount := 0 } : Contact).outcome =
              Outcome.pending
            then { ({ outcome := Outcome.pending, attemptCount := 0 } : Contact) with
                    outcome := Outcome.skipped }
            else { outcome := Outcome.pending, attemptCount := 0 }) :=
  ⟨(cancel_skips_and_stops.1 wCancelState wCancelState rfl (Reach.refl wCancelState)).1,
    cancel_skips_and_stops.2.2 wCancelState 0
      { outcome := Outcome.pending, attemptCount := 0 } (by decide)⟩

/- ===================== retry policy ==================================== -/

/-- Claim C7: a transport failure below the bound of 2 retries leaves the
contact DISPATCHED with its attempt counter incremented; a transport
failure on the third attempt marks the contact FAILED with
`attempt_count = 3`; and in the spec's scenario (3 contacts, concurrency
budget 1, contact 1 failing at the transport layer on every attempt) the
failure never escalates: the campaign still reaches COMPLETED with contact
1 FAILED at attempt 3 and the other contacts ANSWERED. -/
theorem transport_retry_policy :
    (∀ (s : CampaignState) (i : Nat) (c : Contact),
        s.contacts[i]? = some c → c.outcome = Outcome.dispatched →
        s.status = CampaignStatus.running → c.attemptCount < retryLimit →
        (resolveContact s i CallResult.transportErr).contacts[i]? =
          some { outcome := Outcome.dispatched, attemptCount := c.attemptCount + 1 }) ∧
    (∀ (s : CampaignState) (i : Nat) (c : Contact),
        s.contacts[i]? = some c → c.outcome = Outcome.dispatched →
        c.attemptCount = retryLimit →
        (resolveContact s i CallResult.transportErr).contacts[i]? =
          some { outcome := Outcome.failed, attemptCount := retryLimit }) ∧
    runDispatcher scenarioOracle 10 scenarioState =
      { status := CampaignStatus.completed
        contacts :=
          [ { outcome := Outcome.answered, attemptCount := 1 }
          , { outcome := Outcome.failed, attemptCount := 3 }
          , { outcome := Outcome.answered, attemptCount := 1 } ]
        maxConcurrent := 1 } := by
  refine ⟨?_, ?_, by decide⟩
  · intro s i c hc hdisp hrun hlt
    simp only [resolveContact, hc, if_pos hdisp]
    show (s.contacts.set i (resolveOutcome s.status c CallResult.transportErr))[i]? = _
    rw [List.getElem?_set_eq_of_lt _ (lt_length_of_some hc)]
    unfold resolveOutcome
    rw [if_pos ⟨hrun, hlt⟩]
    rcases c with ⟨o, a⟩
    cases hdisp
    rfl
  · intro s i c hc hdisp heq
    simp only [resolveContact, hc, if_pos hdisp]
    show (s.contacts.set i (resolveOutcome s.status c CallResult.transportErr))[i]? = _
    rw [List.getElem?_set_eq_of_lt _ (lt_length_of_some hc)]
    unfold resolveOutcome
    rw [if_neg ?neg]
    case neg =>
      intro hand
      rw [heq] at hand
      exact absurd hand.2 (by decide)
    rcases c with ⟨o, a⟩
    have ha : a = retryLimit := heq
    cases hdisp
    rw [ha]

/-- A one-contact running campaign with one attempt already made, used to
instantiate the retry theorem. -/
def wRetryState : CampaignState :=
  { status := CampaignStatus.running
    contacts := [ { outcome := Outcome.dispatched, attemptCount := 1 } ]
    maxConcurrent := 1 }

/-- Witness for claim C7 at a concrete transport failure below the bound. -/
theorem transport_retry_policy_witness :
    (resolveContact wRetryState 0 CallResult.transportErr).contacts[0]? =
      some { outcome := Outcome.dispatched, attemptCount := 2 } :=
  transport_retry_policy.1 wRetryState 0 { outcome := Outcome.dispatched, attemptCount := 1 }
    (by decide) (by decide) (by decide) (by decide)

/- ===================== lifecycle guards ================================ -/

/-- Claim C4: every lifecycle request against a campaign in a terminal
state (COMPLETED, CANCELLED, FAILED), and every pause or cancel request on
a DRAFT or QUEUED campaign, reports `InvalidTransition` and returns the
stored campaign state (status, contacts, counters) unchanged. -/
theorem invalid_requests_no_side_effects :
    (∀ s : CampaignState, s.status.isTerminal = true →
        tryStart s = (s, some TransitionError.invalidTransition) ∧
        tryPause s = (s, some TransitionError.invalidTransition) ∧
        tryCancel s = (s, some TransitionError.invalidTransition) ∧
        tryResume s = (s, some TransitionError.invalidTransition)) ∧
    (∀ s : CampaignState,
        s.status = CampaignStatus.draft ∨ s.status = CampaignStatus.queued →
        tryPause s = (s, some TransitionError.invalidTransition) ∧
        tryCancel s = (s, some TransitionError.invalidTransition)) := by
  constructor
  · intro s hterm
    rcases s with ⟨st, cs, mc⟩
    cases st with
    | completed => exact ⟨rfl, rfl, rfl, rfl⟩
    | cancelled => exact ⟨rfl, rfl, rfl, rfl⟩
    | failed => exact ⟨rfl, rfl, rfl, rfl⟩
    | draft => exact Bool.noConfusion hterm
    | queued => exact Bool.noConfusion hterm
    | running => exact Bool.noConfusion hterm
    | paused => exact Bool.noConfusion hterm
  · intro s hd
    rcases s with ⟨st, cs, mc⟩
    rcases hd with h | h
    · have h2 : st = CampaignStatus.draft := h
      subst h2
      exact ⟨rfl, rfl⟩
    · have h2 : st = CampaignStatus.queued := h
      subst h2
      exact ⟨rfl, rfl⟩

/-- A completed campaign used to instantiate the guard theorem. -/
def wDoneState : CampaignState :=
  { status := CampaignStatus.completed
    contacts := [ { outcome := Outcome.answered, attemptCount := 1 } ]
    maxConcurrent := 1 }

/-- A draft campaign used to instantiate the guard theorem. -/
def wDraftState : CampaignState :=
  { status := CampaignStatus.draft
    contacts := [ { outcome := Outcome.pending, attemptCount := 0 } ]
    maxConcurrent := 1 }

/-- Witness for claim C4 at a concrete terminal campaign and a concrete
draft campaign. -/
theorem invalid_requests_no_side_effects_witness :
    tryStart wDoneState = (wDoneState, some TransitionError.invalidTransition) ∧
    tryPause wDraftState = (wDraftState, some TransitionError.invalidTransition) :=
  ⟨(invalid_requests_no_side_effects.1 wDoneState (by decide)).1,
    (invalid_requests_no_side_effects.2 wDraftState (Or.inl rfl)).1⟩

/- ===================== stats aggregator ================================ -/

/-- Modelled from the spec: the count of contacts whose outcome is
ANSWERED. -/
def answeredCount (l : List Contact) : Nat :=
  l.countP (fun d => decide (d.outcome = Outcome.answered))

/-- Modelled from the spec: the count of contacts with a terminal
outcome. -/
def terminalCount (l : List Contact) : Nat :=
  l.countP (fun d => d.outcome.isTerminal)

/-- Modelled from the spec: GetStats computes
`success_rate = ANSWERED_count / terminal_count`, defined as 0 when
`terminal_count == 0`; `CampaignService.get_campaign_stats` is not among
the provided sources. -/
def successRate (l : List Contact) : ℚ :=
  if terminalCount l = 0 then 0
  else (answeredCount l : ℚ) / (terminalCount l : ℚ)

/-- Counting with a stronger predicate gives at most the count of a weaker
one. -/
theorem countP_mono_of_imp {α : Type} (p q : α → Bool)
    (himp : ∀ a, p a = true → q a = true) :
    ∀ l : List α, l.countP p ≤ l.countP q := by
  intro l
  induction l with
  | nil => exact Nat.le_refl 0
  | cons x xs ih =>
    rw [List.countP_cons, List.countP_cons]
    cases hp : p x
    · simp [hp]
      omega
    · have hq := himp x hp
      simp [hp, hq]
      omega

/-- An ANSWERED contact is terminal, so the ANSWERED count is bounded by
the terminal count. -/
theorem answeredCount_le_terminalCount (l : List Contact) :
    answeredCount l ≤ terminalCount l := by
  apply countP_mono_of_imp
  intro a h
  have h2 : a.outcome = Outcome.answered := of_decide_eq_true h
  rw [h2]
  rfl

/-- Claim C5: GetStats returns `success_rate` equal to the ANSWERED count
divided by the terminal count, returns 0 when the terminal count is zero
(the division is guarded), and the resulting rate always lies in [0, 1]. -/
theorem get_stats_success_rate :
    (∀ l : List Contact, terminalCount l = 0 → successRate l = 0) ∧
    (∀ l : List Contact, terminalCount l ≠ 0 →
        successRate l = (answeredCount l : ℚ) / (terminalCount l : ℚ) ∧
        successRate l * (terminalCount l : ℚ) = (answeredCount l : ℚ)) ∧
    (∀ l : List Contact, 0 ≤ successRate l ∧ successRate l ≤ 1) := by
  refine ⟨?_, ?_, ?_⟩
  · intro l h
    simp [successRate, h]
  · intro l h
    have hne : ((terminalCount l : ℚ)) ≠ 0 := by
      exact_mod_cast h
    constructor
    · simp [successRate, h]
    · simp only [successRate, if_neg h]
      field_simp
  · intro l
    by_cases h : terminalCount l = 0
    · simp [successRate, h]
    · have hpos : (0 : ℚ) < (terminalCount l : ℚ) := by
        have : 0 < terminalCount l := Nat.pos_of_ne_zero h
        exact_mod_cast this
      constructor
      · simp only [successRate, if_neg h]
        positivity
      · simp only [successRate, if_neg h]
        rw [div_le_one hpos]
        exact_mod_cast answeredCount_le_terminalCount l

/-- A contact list with one ANSWERED and one FAILED contact, used to
instantiate the stats theorem. -/
def wStatsContacts : List Contact :=
  [ { outcome := Outcome.answered, attemptCount := 1 }
  , { outcome := Outcome.failed, attemptCount := 3 } ]

/-- Witness for claim C5 at concrete contact lists. -/
theorem get_stats_success_rate_witness :
    successRate [] = 0 ∧
    successRate wStatsContacts = (answeredCount wStatsContacts : ℚ) /
      (terminalCount wStatsContacts : ℚ) :=
  ⟨get_stats_success_rate.1 [] rfl,
    (get_stats_success_rate.2.1 wStatsContacts (by decide)).1⟩

/- ===================== job queue theorems ============================== -/

/-- Counterexample to claim C2: two start requests for the same campaign
enqueue two jobs (not one), and the two jobs carry distinct
broker-generated task ids — the enqueue is not keyed by the campaign
identifier. -/
theorem start_twice_two_jobs :
    jobsFor (queue_campaign (queue_campaign emptyQueue "c1").2 "c1").2 "c1" = 2 ∧
    (queue_campaign emptyQueue "c1").1.taskId ≠
      (queue_campaign (queue_campaign emptyQueue "c1").2 "c1").1.taskId := by
  decide

/-- Claim C2 (amended): every call of `queue_campaign` enqueues exactly one
new job whose task id is freshly generated by the broker (so n start
requests for the same campaign yield n jobs, with no campaign-keyed
dedupe), and a duplicate start of a campaign that is no longer DRAFT is
rejected by the start route with HTTP 400 rather than treated as a
success. -/
theorem queue_campaign_fresh_ids :
    (∀ (q : CeleryQueue) (cid : String),
        jobsFor (queue_campaign q cid).2 cid = jobsFor q cid + 1) ∧
    (∀ (q : CeleryQueue) (cid : String),
        (queue_campaign q cid).1.taskId = q.nextTaskId ∧
        (queue_campaign q cid).2.nextTaskId = q.nextTaskId + 1) ∧
    (∀ s : CampaignState, s.status ≠ CampaignStatus.draft →
        start_campaign_route s = ApiResult.httpError 400 "Cannot start campaign") := by
  refine ⟨?_, ?_, ?_⟩
  · intro q cid
    simp [jobsFor, queue_campaign, celeryDelay, List.countP_append, List.countP_cons]
  · intro q cid
    exact ⟨rfl, rfl⟩
  · intro s h
    rcases s with ⟨st, cs, mc⟩
    cases st with
    | draft => exact absurd rfl h
    | queued => rfl
    | running => rfl
    | paused => rfl
    | completed => rfl
    | cancelled => rfl
    | failed => rfl

/-- Witness for claim C2's amended theorem at a concrete queue and a
concrete running campaign. -/
theorem queue_campaign_fresh_ids_witness :
    jobsFor (queue_campaign emptyQueue "c7").2 "c7" = jobsFor emptyQueue "c7" + 1 ∧
    start_campaign_route wRetryState = ApiResult.httpError 400 "Cannot start campaign" :=
  ⟨queue_campaign_fresh_ids.1 emptyQueue "c7",
    queue_campaign_fresh_ids.2.2 wRetryState (by decide)⟩

/-- Counterexample to claim C3: a freshly enqueued job reports the Celery
status string PENDING, which is none of queued, running, succeeded,
failed. -/
theorem job_status_pending_not_coarse :
    (get_job_status freshBackend 0).status = "PENDING" ∧
    ("PENDING" ≠ "queued" ∧ "PENDING" ≠ "running" ∧
      "PENDING" ≠ "succeeded" ∧ "PENDING" ≠ "failed") := by
  refine ⟨rfl, by decide⟩

/-- Claim C3 (amended): the job-status route returns the raw Celery task
state read from the Celery result backend for that task id — one of
PENDING, STARTED, SUCCESS, FAILURE, RETRY, REVOKED, never one of the four
claimed values queued, running, succeeded, failed — together with the task
result only when the task is ready; it is separately stored Celery state,
not a projection of the campaign's status. -/
theorem get_job_status_celery :
    (∀ (backend : Nat → CeleryTaskState × Option String) (tid : Nat),
        (get_job_status backend tid).status = ((backend tid).1).toStatusString ∧
        (get_job_status backend tid).taskId = tid) ∧
    (∀ st : CeleryTaskState,
        st.toStatusString = "PENDING" ∨ st.toStatusString = "STARTED" ∨
        st.toStatusString = "SUCCESS" ∨ st.toStatusString = "FAILURE" ∨
        st.toStatusString = "RETRY" ∨ st.toStatusString = "REVOKED") ∧
    (∀ st : CeleryTaskState,
        st.toStatusString ≠ "queued" ∧ st.toStatusString ≠ "running" ∧
        st.toStatusString ≠ "succeeded" ∧ st.toStatusString ≠ "failed") ∧
    (∀ (backend : Nat → CeleryTaskState × Option String) (tid : Nat),
        (backend tid).1.isReady = false → (get_job_status backend tid).result = none) := by
  refine ⟨fun b t => ⟨rfl, rfl⟩, ?_, ?_, ?_⟩
  · intro st
    cases st <;> decide
  · intro st
    cases st <;> decide
  · intro b t h
    simp only [get_job_status, h]
    rfl

/-- Witness for claim C3's amended theorem at a concrete backend. -/
theorem get_job_status_celery_witness :
    (get_job_status freshBackend 5).result = none :=
  get_job_status_celery.2.2.2 freshBackend 5 rfl

/- ===================== workspace filter theorem ======================== -/

/-- Claim C9: for an authenticated user with a workspace, the filter built
by `get_workspace_filter` matches a stored document exactly when the
document's `workspace_id` equals the user's workspace, is null, or is
absent — so legacy documents without a workspace are visible to the users
of every workspace. -/
theorem workspace_filter_matches_legacy :
    ∀ (u : AuthUser) (w : String) (v : MongoFieldVal),
      u.workspaceId = some w → w ≠ "" →
      (matchesWorkspaceFilter (get_workspace_filter (some u)) v = true ↔
        (v = MongoFieldVal.stringValue w ∨ v = MongoFieldVal.nullValue ∨
          v = MongoFieldVal.absent)) := by
  intro u w v hu hw
  simp only [get_workspace_filter, hu, if_neg hw]
  cases v with
  | absent => simp [matchesWorkspaceFilter, branchEqString, branchEqNull, branchNotExists]
  | nullValue => simp [matchesWorkspaceFilter, branchEqString, branchEqNull, branchNotExists]
  | stringValue s =>
    simp [matchesWorkspaceFilter, branchEqString, branchEqNull, branchNotExists]

/-- Witness for claim C9: a legacy document (null workspace) is matched by
the filter of a concrete workspace-scoped user. -/
theorem workspace_filter_matches_legacy_witness :
    matchesWorkspaceFilter
      (get_workspace_filter (some { workspaceId := some "w1" }))
      MongoFieldVal.nullValue = true :=
  (workspace_filter_matches_legacy { workspaceId := some "w1" } "w1"
      MongoFieldVal.nullValue rfl (by decide)).mpr
    (Or.inr (Or.inl rfl))

/- ===================== phone validation theorem ======================== -/

/-- Claim C10: a create-call or add-phone-number request is rejected with
HTTP 400 precisely when the submitted phone number does not start with
`+`; any string starting with `+` passes the validation regardless of the
remaining characters (later service failures surface as HTTP 500, never
400). -/
theorem phone_validation_iff :
    ∀ (phone : String) (service : Except String String),
      (isHttp400 (create_call phone service) = true ↔
        startsWithPlus phone = false) ∧
      (isHttp400 (add_phone_number phone service) = true ↔
        startsWithPlus phone = false) := by
  intro phone service
  cases hsw : startsWithPlus phone
  · constructor <;> simp [create_call, add_phone_number, isHttp400, hsw]
  · cases service with
    | ok body =>
      constructor <;> simp [create_call, add_phone_number, isHttp400, hsw]
    | error e =>
      constructor <;> simp [create_call, add_phone_number, isHttp400, hsw]

/-- Witness for claim C10 at concrete inputs: a number without `+` is
rejected with 400, and `+abc` passes the validation. -/
theorem phone_validation_iff_witness :
    isHttp400 (create_call "12345" (Except.ok "created")) = true ∧
    isHttp400 (add_phone_number "+abc" (Except.ok "created")) ≠ true :=
  ⟨(phone_validation_iff "12345" (Except.ok "created")).1.mpr (by decide),
    fun h => by
      have := (phone_validation_iff "+abc" (Except.ok "created")).2.mp h
      exact absurd this (by decide)⟩

end Vobiz
